import Mathlib

set_option autoImplicit false

set_option maxRecDepth 4000

/-!
Shallow embedding of the continuation-stitching generation engine of
`src/gemini_service.py` (class `GeminiService`), together with proofs of the
behavioural claims about it.

Modelling conventions:
* Python strings are modelled as `List Char` (`Str`).
* The remote chat service is an oracle parameter: for each chunk index, message
  and attempt number it yields either a transport error (Python: an exception
  raised by `chat.send_message`) or a pair (response text, raw finish token).
* Fallible code returns `Except`; the fatal error taxonomy of the driver is the
  inductive `GenError`.
* `time.sleep` calls inside the retry wrapper are recorded as a trace of the
  requested durations (seconds as `ℚ`, the exact value of the float product for
  the values of interest); the actual passage of time is not modelled.
* `session_id` (a UUID) and `total_duration_seconds` (wall-clock time) are side
  effects outside the embedding and are omitted from `GenerationResult`.
* Each completed request/response exchange of the session loop is recorded in a
  trace of `Exchange` records so that "no network call is made" and "exactly
  `max_chunks` exchanges" are statable.
-/

abbrev Str := List Char

-- ──────────────────────────────────────────────────────────────────────────
-- FinishReason (gemini_service.py lines 54-73)
-- ──────────────────────────────────────────────────────────────────────────

inductive FinishReason where
  | stop
  | max_tokens
  | safety
  | recitation
  | other
deriving DecidableEq, Repr

/-- Classifier `FinishReason.from_raw` (lines 63-73): Python's `cls(value)` succeeds
exactly when `value` is one of the five member values; any other raw token
degrades to `OTHER`. -/
def FinishReason.from_raw (raw : Str) : FinishReason :=
  if raw = "STOP".toList then .stop
  else if raw = "MAX_TOKENS".toList then .max_tokens
  else if raw = "SAFETY".toList then .safety
  else if raw = "RECITATION".toList then .recitation
  else if raw = "OTHER".toList then .other
  else .other

-- ──────────────────────────────────────────────────────────────────────────
-- GenerationConfig (lines 80-109); numeric defaults from the source.
-- Floats are modelled as ℚ.
-- ──────────────────────────────────────────────────────────────────────────

structure GenerationConfig where
  max_output_tokens : Nat := 4000
  temperature : ℚ := 1/2
  anchor_chars : Nat := 100
  overlap_window : Nat := 500
  min_overlap_chars : Nat := 20
  max_chunks : Nat := 50
  inter_chunk_delay : ℚ := 2
  max_retries : Nat := 3
  retry_backoff : ℚ := 5
  log_prompt : Bool := true
  log_responses : Bool := true
  log_continuation : Bool := true
  log_overlap_text : Bool := false
  response_log_limit : Nat := 500
deriving DecidableEq, Repr

-- ──────────────────────────────────────────────────────────────────────────
-- GenerationResult (lines 116-129). `session_id` and
-- `total_duration_seconds` are omitted (UUID / wall clock, see header).
-- ──────────────────────────────────────────────────────────────────────────

structure GenerationResult where
  text : Str
  chunks_consumed : Nat
  finish_reason : FinishReason
  retries_used : Nat := 0
  overlaps_removed : Nat := 0
  total_chars : Nat := 0
deriving DecidableEq, Repr

-- ──────────────────────────────────────────────────────────────────────────
-- Python string primitives used by the engine.
-- ──────────────────────────────────────────────────────────────────────────

/-- Python's `s[-window:]` (used at lines 466 and 487). For `window > 0` this
is the last `window` characters (all of `s` when it is shorter); Python's
`s[-0:]` is `s[0:]`, i.e. the whole string. -/
def pyTailSlice (window : Nat) (s : Str) : Str :=
  if window = 0 then s else s.drop (s.length - window)

/-- Python's `s.strip()` (line 487): remove leading and trailing whitespace. -/
def pyStrip (s : Str) : Str :=
  ((s.dropWhile Char.isWhitespace).reverse.dropWhile Char.isWhitespace).reverse

/-- The blank-prompt test of line 212: `not prompt or not prompt.strip()`. -/
def is_blank (s : Str) : Bool :=
  s.isEmpty || (pyStrip s).isEmpty

-- ──────────────────────────────────────────────────────────────────────────
-- difflib.SequenceMatcher(None, a, b, autojunk=False).find_longest_match
-- (used at lines 468-469).  With no junk (isjunk=None, autojunk=False) its
-- documented contract is: return a block (a, b, size) with
-- a[i:i+size] == b[j:j+size] of maximal size; among all maximal blocks the
-- one starting earliest in `a`, and among those the one starting earliest
-- in `b`.  `pickBest` scans candidates in ascending (i, j) order and
-- replaces the current best only on a strictly larger size, which realises
-- exactly that tie-breaking rule.
-- ──────────────────────────────────────────────────────────────────────────

structure MatchBlock where
  a : Nat
  b : Nat
  size : Nat
deriving DecidableEq, Repr

/-- Length of the longest common prefix of two character lists. -/
def commonPrefixLen : Str → Str → Nat
  | x :: xs, y :: ys => if x = y then commonPrefixLen xs ys + 1 else 0
  | _, _ => 0

/-- Size of the maximal matching run of `a` and `b` starting at positions
`i` and `j` respectively. -/
def matchSizeAt (a b : Str) (i j : Nat) : Nat :=
  commonPrefixLen (a.drop i) (b.drop j)

/-- Keep the first candidate of strictly maximal size (difflib tie-break).
The comparison is matched at head position so that evaluation of concrete
inputs stays shallow. -/
def pickBest : List MatchBlock → MatchBlock → MatchBlock
  | [], best => best
  | c :: cs, best =>
    match Nat.decLt best.size c.size with
    | .isTrue _ => pickBest cs c
    | .isFalse _ => pickBest cs best

/-- All candidate blocks `⟨i, j, matchSizeAt a b i j⟩`, in ascending
lexicographic (i, j) order. -/
def candidateBlocks (a b : Str) : List MatchBlock :=
  ((List.range a.length).map (fun i =>
    (List.range b.length).map (fun j =>
      (⟨i, j, matchSizeAt a b i j⟩ : MatchBlock)))).flatten

/-- Embedding of `SequenceMatcher.find_longest_match(0, len(a), 0, len(b))` with no junk:
the longest matching block, ties broken toward the earliest start in `a`,
then in `b`; `⟨0, 0, 0⟩` when there is no non-empty match. -/
def find_longest_match (a b : Str) : MatchBlock :=
  pickBest (candidateBlocks a b) ⟨0, 0, 0⟩

-- ──────────────────────────────────────────────────────────────────────────
-- GeminiService._find_overlap (lines 450-475)
-- ──────────────────────────────────────────────────────────────────────────

/-- Overlap detector `_find_overlap`: tail = `prev_chunk[-overlap_window:]`; run
`find_longest_match` against `next_chunk`; the match qualifies when its size
is at least `min_overlap_chars` and it starts at offset 0 of `next_chunk`
(`match.b == 0`); then return `(match.size, next_chunk[:match.size])`,
otherwise `(0, "")`. -/
def find_overlap (cfg : GenerationConfig) (prev_chunk next_chunk : Str) :
    Nat × Str :=
  let tail := pyTailSlice cfg.overlap_window prev_chunk
  let m := find_longest_match tail next_chunk
  if cfg.min_overlap_chars ≤ m.size ∧ m.b = 0 then
    (m.size, next_chunk.take m.size)
  else
    (0, [])

/-- The dedup-and-store step of the session loop (lines 311-335) for a
non-first chunk: returns (stored text, stripped char count, new overlap
counter).  Python's `if overlap_size:` is the `≠ 0` test. -/
def dedup_step (cfg : GenerationConfig) (prev raw : Str) (overlaps : Nat) :
    Str × Nat × Nat :=
  let fo := find_overlap cfg prev raw
  if fo.1 ≠ 0 then (raw.drop fo.1, fo.1, overlaps + 1) else (raw, 0, overlaps)

-- ──────────────────────────────────────────────────────────────────────────
-- GeminiService._build_continuation_prompt (lines 479-491)
-- ──────────────────────────────────────────────────────────────────────────

/-- Prompt builder `_build_continuation_prompt`: anchor = `last_chunk.strip()[-anchor_chars:]`
spliced into the fixed instruction text. -/
def build_continuation_prompt (cfg : GenerationConfig) (last_chunk : Str) : Str :=
  let anchor := pyTailSlice cfg.anchor_chars (pyStrip last_chunk)
  ("Continue the response without repeating or summarising previous content. "
    ++ "Pick up directly and seamlessly after: '...").toList
  ++ anchor ++ "'".toList

-- ──────────────────────────────────────────────────────────────────────────
-- GeminiService._send_with_retry (lines 495-569)
-- ──────────────────────────────────────────────────────────────────────────

/-- Observable outcome of one `_send_with_retry` call: the attempt numbers
consulted in order, the sleep durations requested in order, and either the
triple `(text, finish_reason, attempts_used)` or (`RetryExhausted`) the last
underlying error. -/
structure SendOutcome (ε : Type) where
  tried : List Nat
  sleeps : List ℚ
  result : Except ε (Str × FinishReason × Nat)
deriving Repr

/-- The attempt loop of `_send_with_retry` (lines 514-555).  `remaining` is
the number of further attempts allowed after the current one; `attempt` is
the current 0-based attempt number.  Before any attempt with `attempt > 0`
the code sleeps `retry_backoff * attempt` seconds (line 517).  A successful
attempt returns `(response.text, FinishReason.from_raw(...), attempt)`
(line 541); when the last allowed attempt fails, the last error is raised
(lines 566-569). -/
def send_attempts {ε : Type} (backoff : ℚ)
    (oracle : Nat → Except ε (Str × Str)) :
    Nat → Nat → SendOutcome ε
  | 0, attempt =>
    match oracle attempt with
    | .ok (t, raw) =>
      ⟨[attempt], if attempt = 0 then [] else [backoff * attempt],
       .ok (t, FinishReason.from_raw raw, attempt)⟩
    | .error e =>
      ⟨[attempt], if attempt = 0 then [] else [backoff * attempt], .error e⟩
  | r + 1, attempt =>
    match oracle attempt with
    | .ok (t, raw) =>
      ⟨[attempt], if attempt = 0 then [] else [backoff * attempt],
       .ok (t, FinishReason.from_raw raw, attempt)⟩
    | .error _ =>
      ⟨attempt :: (send_attempts backoff oracle r (attempt + 1)).tried,
       (if attempt = 0 then [] else [backoff * attempt])
         ++ (send_attempts backoff oracle r (attempt + 1)).sleeps,
       (send_attempts backoff oracle r (attempt + 1)).result⟩

/-- Retry wrapper `_send_with_retry`: `for attempt in range(cfg.max_retries + 1)` —
attempts start at 0 with `max_retries` further attempts allowed. -/
def send_with_retry {ε : Type} (cfg : GenerationConfig)
    (oracle : Nat → Except ε (Str × Str)) : SendOutcome ε :=
  send_attempts cfg.retry_backoff oracle cfg.max_retries 0

-- ──────────────────────────────────────────────────────────────────────────
-- GeminiService.generate_until_complete (lines 188-440)
-- ──────────────────────────────────────────────────────────────────────────

/-- Fatal error taxonomy of the driver (spec §7; all raised as `ValueError` /
`RuntimeError` in the source).  No constructor carries any chunk text:
accumulated text is never observable through a fatal error. -/
inductive GenError (ε : Type) where
  | invalidArgument
  | retryExhausted (e : ε)
  | nonContinuableFinish (chunk : Nat) (reason : FinishReason)
  | ceilingExceeded
deriving DecidableEq, Repr

/-- One stored chunk of a session (spec §3): the post-dedup text, the
classified finish reason of its exchange, and the number of leading
characters stripped by dedup.  The source keeps only the texts (list
`chunks`); `index`, `finish` and `overlap_removed` record the loop
variables `chunk_index`, `finish_reason` and `overlap_size` at the moment
of `chunks.append` (line 337). -/
structure Chunk where
  index : Nat
  text : Str
  finish : FinishReason
  overlap_removed : Nat
deriving DecidableEq, Repr

/-- One completed request/response exchange (a returning `_send_with_retry`
call) of the session loop. -/
structure Exchange where
  chunk_index : Nat
  finish : FinishReason
  attempts : Nat
deriving DecidableEq, Repr

/-- Text of the last stored chunk, `chunks[-1]` (lines 255 and 313). -/
def lastText (chunks : List Chunk) : Str :=
  (chunks.getLast?).elim [] (fun c => c.text)

/-- Message built for one loop turn (lines 252-255): the prompt for chunk 0,
otherwise the continuation prompt anchored on the last stored chunk. -/
def loop_message (cfg : GenerationConfig) (prompt : Str) (chunk_index : Nat)
    (chunks : List Chunk) : Str :=
  if chunk_index = 0 then prompt
  else build_continuation_prompt cfg (lastText chunks)

/-- The store step of the loop (lines 311-337): dedup applies only when a
previous chunk exists (`if chunks:`); returns (stored text, stripped count,
new overlap counter). -/
def store_step (cfg : GenerationConfig) (chunks : List Chunk) (raw_text : Str)
    (overlaps : Nat) : Str × Nat × Nat :=
  if chunks.isEmpty then (raw_text, 0, overlaps)
  else dedup_step cfg (lastText chunks) raw_text overlaps

/-- The main continuation loop (lines 249-399).  `remaining` is the number
of loop iterations left (`max_chunks - chunk_index`); when it reaches 0 the
`for`-`else` arm raises `CeilingExceeded` (lines 385-399).  Each iteration:
build the message (lines 252-255), send with retry (279-284), accumulate
attempts (285), dedup against the previous chunk when one exists (311-335),
store the chunk (337), then route on the finish reason (345-383).  The
`time.sleep(inter_chunk_delay)` of line 367 is a pure delay and the
optional `on_chunk` streaming callback of lines 340-341 a pure observer;
neither affects the session state and neither is modelled. -/
def generate_loop {ε : Type} (cfg : GenerationConfig)
    (oracle : Nat → Str → Nat → Except ε (Str × Str)) (prompt : Str) :
    Nat → Nat → List Chunk → Nat → Nat → List Exchange →
    List Exchange × Except (GenError ε) (List Chunk × Nat × Nat × FinishReason)
  | 0, _, _, _, _, trace => (trace, .error .ceilingExceeded)
  | r + 1, chunk_index, chunks, retries, overlaps, trace =>
    match (send_with_retry cfg
        (oracle chunk_index (loop_message cfg prompt chunk_index chunks))).result with
    | .error e => (trace, .error (.retryExhausted e))
    | .ok (raw_text, finish, attempts) =>
      match finish with
      | .stop =>
        (trace ++ [⟨chunk_index, .stop, attempts⟩],
         .ok (chunks ++ [⟨chunk_index,
                (store_step cfg chunks raw_text overlaps).1, .stop,
                (store_step cfg chunks raw_text overlaps).2.1⟩],
              retries + attempts,
              (store_step cfg chunks raw_text overlaps).2.2, .stop))
      | .max_tokens =>
        generate_loop cfg oracle prompt r (chunk_index + 1)
          (chunks ++ [⟨chunk_index,
              (store_step cfg chunks raw_text overlaps).1, .max_tokens,
              (store_step cfg chunks raw_text overlaps).2.1⟩])
          (retries + attempts)
          (store_step cfg chunks raw_text overlaps).2.2
          (trace ++ [⟨chunk_index, .max_tokens, attempts⟩])
      | f =>
        (trace ++ [⟨chunk_index, f, attempts⟩],
         .error (.nonContinuableFinish chunk_index f))

/-- Stitcher `_stitch` (lines 444-446): `"".join(chunks)`. -/
def stitch (chunks : List Str) : Str :=
  chunks.flatten

/-- Main entry point `generate_until_complete`: blank-prompt validation
(line 212) before anything else, then the loop from chunk 0 with empty
state, then result assembly (lines 401-440).  Returns the exchange trace
together with the outcome. -/
def generate_until_complete {ε : Type} (cfg : GenerationConfig)
    (oracle : Nat → Str → Nat → Except ε (Str × Str)) (prompt : Str) :
    List Exchange × Except (GenError ε) GenerationResult :=
  if is_blank prompt then ([], .error .invalidArgument)
  else
    match generate_loop cfg oracle prompt cfg.max_chunks 0 [] 0 0 [] with
    | (trace, .error e) => (trace, .error e)
    | (trace, .ok (chunks, retries, overlaps, finish)) =>
      (trace, .ok
        { text := stitch (chunks.map (fun c => c.text))
          chunks_consumed := chunks.length
          finish_reason := finish
          retries_used := retries
          overlaps_removed := overlaps
          total_chars := (stitch (chunks.map (fun c => c.text))).length })

-- ──────────────────────────────────────────────────────────────────────────
-- Spec-side predicate (from spec §4.3 wording) and concrete fixtures used
-- by witnesses and counterexamples.
-- ──────────────────────────────────────────────────────────────────────────

/-- Spec-side reading of "longest contiguous common substring" (spec §4.3):
`m` is a valid matching block of `tail` and `next` and no pair of positions
carries a longer matching run. -/
def longest_match_spec (tail next : Str) (m : MatchBlock) : Prop :=
  (tail.drop m.a).take m.size = (next.drop m.b).take m.size
  ∧ m.a + m.size ≤ tail.length
  ∧ m.b + m.size ≤ next.length
  ∧ ∀ i j, matchSizeAt tail next i j ≤ m.size

/-- Spec-side claim of §4.3 / claim C2 minus the concrete scenario: the
code's tail is the last `overlap_window` characters of the previous chunk,
the difflib block is a longest common contiguous substring match, and the
returned pair is that block's size and text exactly when it is long enough
and starts at offset 0 of the next chunk. -/
def find_overlap_claim (cfg : GenerationConfig) (prev next : Str) : Prop :=
  pyTailSlice cfg.overlap_window prev = prev.drop (prev.length - cfg.overlap_window)
  ∧ longest_match_spec (pyTailSlice cfg.overlap_window prev) next
      (find_longest_match (pyTailSlice cfg.overlap_window prev) next)
  ∧ find_overlap cfg prev next =
      (if cfg.min_overlap_chars ≤ (find_longest_match (pyTailSlice cfg.overlap_window prev) next).size
          ∧ (find_longest_match (pyTailSlice cfg.overlap_window prev) next).b = 0
       then ((find_longest_match (pyTailSlice cfg.overlap_window prev) next).size,
             next.take (find_longest_match (pyTailSlice cfg.overlap_window prev) next).size)
       else (0, []))

/-- Scenario C configuration: `min_overlap_chars=5`, `overlap_window=50`. -/
def scenC_cfg : GenerationConfig := { min_overlap_chars := 5, overlap_window := 50 }

def scenC_prev : Str := "...The quick brown fox".toList

def scenC_next : Str := "brown fox jumps over".toList

/-- Counterexample configuration for claim C3: `min_overlap_chars=3`. -/
def cexC3_cfg : GenerationConfig := { min_overlap_chars := 3, overlap_window := 50 }

def cexC3_prev : Str := "abcdXYZ".toList

def cexC3_next : Str := "abcdEFG".toList

/-- Witness strings for the amended claim C3 (default config, `min=20`). -/
def wC3_prev : Str := "hello world".toList

def wC3_next : Str := "completely different".toList

def default_cfg : GenerationConfig := {}

/-- Scenario D oracle: transport fails on attempts 0 and 1, succeeds on
attempt 2.  Error values are the attempt numbers. -/
def scenD_oracle : Nat → Except Nat (Str × Str) :=
  fun a => if a < 2 then .error a else .ok ("ok".toList, "STOP".toList)

/-- An oracle whose every attempt fails (error value = attempt number). -/
def allFail_oracle : Nat → Except Nat (Str × Str) := fun a => .error a

/-- Spec-side claim of §4.2 / claim C4 about one `_send_with_retry` call:
at most `max_retries + 1` attempts are consulted; a returned triple carries
the text and classified finish reason of the first successful attempt `k`,
every attempt before `k` having failed; and the call fails if and only if
all `max_retries + 1` attempts fail, in which case the error is the last
attempt's error. -/
def send_retry_claim {ε : Type} (cfg : GenerationConfig)
    (oracle : Nat → Except ε (Str × Str)) : Prop :=
  (send_with_retry cfg oracle).tried.length ≤ cfg.max_retries + 1
  ∧ (∀ t f k, (send_with_retry cfg oracle).result = .ok (t, f, k) →
      k ≤ cfg.max_retries
      ∧ (∃ raw, oracle k = .ok (t, raw) ∧ f = FinishReason.from_raw raw)
      ∧ ∀ i < k, ∃ e, oracle i = .error e)
  ∧ (∀ e, (send_with_retry cfg oracle).result = .error e →
      oracle cfg.max_retries = .error e
      ∧ ∀ i ≤ cfg.max_retries, ∃ e', oracle i = .error e')
  ∧ ((∀ i ≤ cfg.max_retries, ∃ e', oracle i = .error e') →
      ∃ e, (send_with_retry cfg oracle).result = .error e)

-- Driver fixtures for witnesses (the oracles ignore messages and attempt
-- numbers except where noted; error type Unit or Nat).

def prompt_hi : Str := "hi".toList

def cfg_small : GenerationConfig := { max_chunks := 3 }

def cfg_five : GenerationConfig := { max_chunks := 5 }

def cfg_ceiling : GenerationConfig := { max_chunks := 50 }

/-- Scenario C as a two-chunk session: `max_chunks=5`, `min_overlap_chars=5`,
`overlap_window=50`. -/
def cfg_session : GenerationConfig :=
  { max_chunks := 5, min_overlap_chars := 5, overlap_window := 50 }

def oracle_stop : Nat → Str → Nat → Except Unit (Str × Str) :=
  fun _ _ _ => .ok ("hello".toList, "STOP".toList)

def oracle_max : Nat → Str → Nat → Except Unit (Str × Str) :=
  fun _ _ _ => .ok ("x".toList, "MAX_TOKENS".toList)

/-- Chunk 0 ends with MAX_TOKENS, chunk 1 with SAFETY. -/
def oracle_safety : Nat → Str → Nat → Except Unit (Str × Str) :=
  fun c _ _ =>
    if c = 0 then .ok ("a".toList, "MAX_TOKENS".toList)
    else .ok ("b".toList, "SAFETY".toList)

/-- Scenario C session oracle: chunk 0 yields the "quick brown fox" text
with MAX_TOKENS, chunk 1 the overlapping continuation with STOP. -/
def oracle_two : Nat → Str → Nat → Except Unit (Str × Str) :=
  fun c _ _ =>
    if c = 0 then .ok (scenC_prev, "MAX_TOKENS".toList)
    else .ok (scenC_next, "STOP".toList)

/-- Chunk 0 succeeds with MAX_TOKENS; every attempt of every later chunk
fails (error value = attempt number). -/
def oracle_fail_two : Nat → Str → Nat → Except Nat (Str × Str) :=
  fun c _ a =>
    if c = 0 then .ok ("a".toList, "MAX_TOKENS".toList) else .error a

def tr_stop : List Exchange := [⟨0, .stop, 0⟩]

def res_stop : GenerationResult :=
  { text := "hello".toList, chunks_consumed := 1, finish_reason := .stop,
    retries_used := 0, overlaps_removed := 0, total_chars := 5 }

def tr_two : List Exchange := [⟨0, .max_tokens, 0⟩, ⟨1, .stop, 0⟩]

def res_two : GenerationResult :=
  { text := "...The quick brown fox jumps over".toList, chunks_consumed := 2,
    finish_reason := .stop, retries_used := 0, overlaps_removed := 1,
    total_chars := 33 }

-- ──────────────────────────────────────────────────────────────────────────
-- Theorems.  First: the difflib matcher.
-- ──────────────────────────────────────────────────────────────────────────

theorem find_overlap_eq (cfg : GenerationConfig) (prev next : Str) :
    find_overlap cfg prev next =
      (if cfg.min_overlap_chars ≤ (find_longest_match (pyTailSlice cfg.overlap_window prev) next).size
          ∧ (find_longest_match (pyTailSlice cfg.overlap_window prev) next).b = 0
       then ((find_longest_match (pyTailSlice cfg.overlap_window prev) next).size,
             next.take (find_longest_match (pyTailSlice cfg.overlap_window prev) next).size)
       else (0, [])) := rfl

theorem dedup_step_eq (cfg : GenerationConfig) (prev raw : Str) (overlaps : Nat) :
    dedup_step cfg prev raw overlaps =
      (if (find_overlap cfg prev raw).1 ≠ 0
       then (raw.drop (find_overlap cfg prev raw).1, (find_overlap cfg prev raw).1, overlaps + 1)
       else (raw, 0, overlaps)) := rfl

theorem commonPrefixLen_nil_left (t : Str) : commonPrefixLen [] t = 0 := by
  cases t <;> rfl

theorem commonPrefixLen_nil_right (s : Str) : commonPrefixLen s [] = 0 := by
  cases s <;> rfl

theorem commonPrefixLen_le_left : ∀ s t : Str, commonPrefixLen s t ≤ s.length
  | [], t => by rw [commonPrefixLen_nil_left]; exact Nat.zero_le _
  | _ :: _, [] => by rw [commonPrefixLen_nil_right]; exact Nat.zero_le _
  | x :: xs, y :: ys => by
    show (if x = y then commonPrefixLen xs ys + 1 else 0) ≤ xs.length + 1
    split
    · exact Nat.succ_le_succ (commonPrefixLen_le_left xs ys)
    · exact Nat.zero_le _

theorem commonPrefixLen_le_right : ∀ s t : Str, commonPrefixLen s t ≤ t.length
  | [], t => by rw [commonPrefixLen_nil_left]; exact Nat.zero_le _
  | _ :: _, [] => by rw [commonPrefixLen_nil_right]; exact Nat.zero_le _
  | x :: xs, y :: ys => by
    show (if x = y then commonPrefixLen xs ys + 1 else 0) ≤ ys.length + 1
    split
    · exact Nat.succ_le_succ (commonPrefixLen_le_right xs ys)
    · exact Nat.zero_le _

theorem take_commonPrefixLen_eq :
    ∀ s t : Str, s.take (commonPrefixLen s t) = t.take (commonPrefixLen s t)
  | [], t => by rw [commonPrefixLen_nil_left]; rfl
  | _ :: _, [] => by rw [commonPrefixLen_nil_right]; rfl
  | x :: xs, y :: ys => by
    show (x :: xs).take (if x = y then commonPrefixLen xs ys + 1 else 0)
        = (y :: ys).take (if x = y then commonPrefixLen xs ys + 1 else 0)
    split
    · next h =>
      simp only [List.take_succ_cons, h, take_commonPrefixLen_eq xs ys]
    · rfl

theorem pickBest_cons (c : MatchBlock) (cs : List MatchBlock) (best : MatchBlock) :
    pickBest (c :: cs) best
      = if best.size < c.size then pickBest cs c else pickBest cs best := by
  show (match Nat.decLt best.size c.size with
        | .isTrue _ => pickBest cs c
        | .isFalse _ => pickBest cs best)
      = if best.size < c.size then pickBest cs c else pickBest cs best
  cases hd : Nat.decLt best.size c.size with
  | isTrue hlt => rw [if_pos hlt]
  | isFalse hge => rw [if_neg hge]

theorem pickBest_eq_or_mem :
    ∀ (cs : List MatchBlock) (best : MatchBlock),
      pickBest cs best = best ∨ pickBest cs best ∈ cs
  | [], _ => Or.inl rfl
  | c :: cs, best => by
    rw [pickBest_cons]
    split
    · rcases pickBest_eq_or_mem cs c with h | h
      · exact Or.inr (by rw [h]; exact List.mem_cons_self _ _)
      · exact Or.inr (List.mem_cons_of_mem _ h)
    · rcases pickBest_eq_or_mem cs best with h | h
      · exact Or.inl h
      · exact Or.inr (List.mem_cons_of_mem _ h)

theorem le_pickBest_size :
    ∀ (cs : List MatchBlock) (best : MatchBlock),
      best.size ≤ (pickBest cs best).size
  | [], _ => Nat.le_refl _
  | c :: cs, best => by
    rw [pickBest_cons]
    split
    · next h => exact Nat.le_trans (Nat.le_of_lt h) (le_pickBest_size cs c)
    · exact le_pickBest_size cs best

theorem pickBest_ge_of_mem :
    ∀ (cs : List MatchBlock) (best c : MatchBlock),
      c ∈ cs → c.size ≤ (pickBest cs best).size
  | [], _, _, h => absurd h (List.not_mem_nil _)
  | c' :: cs, best, c, h => by
    rw [pickBest_cons]
    rcases List.mem_cons.mp h with rfl | h'
    · split
      · exact le_pickBest_size cs c
      · next h'' => exact Nat.le_trans (Nat.le_of_not_lt h'') (le_pickBest_size cs best)
    · split
      · exact pickBest_ge_of_mem cs c' c h'
      · exact pickBest_ge_of_mem cs best c h'

theorem mem_candidateBlocks {a b : Str} {i j : Nat}
    (hi : i < a.length) (hj : j < b.length) :
    (⟨i, j, matchSizeAt a b i j⟩ : MatchBlock) ∈ candidateBlocks a b := by
  unfold candidateBlocks
  refine List.mem_flatten.mpr
    ⟨(List.range b.length).map (fun j => ⟨i, j, matchSizeAt a b i j⟩), ?_, ?_⟩
  · exact List.mem_map_of_mem _ (List.mem_range.mpr hi)
  · exact List.mem_map_of_mem _ (List.mem_range.mpr hj)

theorem candidateBlocks_spec {a b : Str} {c : MatchBlock}
    (h : c ∈ candidateBlocks a b) :
    ∃ i j, i < a.length ∧ j < b.length ∧ c = ⟨i, j, matchSizeAt a b i j⟩ := by
  unfold candidateBlocks at h
  rcases List.mem_flatten.mp h with ⟨l, hl, hc⟩
  rcases List.mem_map.mp hl with ⟨i, hi, rfl⟩
  rcases List.mem_map.mp hc with ⟨j, hj, rfl⟩
  exact ⟨i, j, List.mem_range.mp hi, List.mem_range.mp hj, rfl⟩

theorem find_longest_match_shape (a b : Str) :
    find_longest_match a b = ⟨0, 0, 0⟩ ∨
    ∃ i j, i < a.length ∧ j < b.length ∧
      find_longest_match a b = ⟨i, j, matchSizeAt a b i j⟩ := by
  unfold find_longest_match
  rcases pickBest_eq_or_mem (candidateBlocks a b) ⟨0, 0, 0⟩ with h | h
  · exact Or.inl h
  · rcases candidateBlocks_spec h with ⟨i, j, hi, hj, hc⟩
    exact Or.inr ⟨i, j, hi, hj, hc⟩

theorem matchSizeAt_eq_zero_left {a b : Str} {i j : Nat} (hi : a.length ≤ i) :
    matchSizeAt a b i j = 0 := by
  unfold matchSizeAt
  rw [List.drop_eq_nil_of_le hi]
  exact commonPrefixLen_nil_left _

theorem matchSizeAt_eq_zero_right {a b : Str} {i j : Nat} (hj : b.length ≤ j) :
    matchSizeAt a b i j = 0 := by
  unfold matchSizeAt
  rw [List.drop_eq_nil_of_le hj]
  exact commonPrefixLen_nil_right _

theorem matchSizeAt_le_size (a b : Str) (i j : Nat) :
    matchSizeAt a b i j ≤ (find_longest_match a b).size := by
  by_cases hi : i < a.length
  · by_cases hj : j < b.length
    · exact pickBest_ge_of_mem _ _ _ (mem_candidateBlocks hi hj)
    · rw [matchSizeAt_eq_zero_right (Nat.le_of_not_lt hj)]
      exact Nat.zero_le _
  · rw [matchSizeAt_eq_zero_left (Nat.le_of_not_lt hi)]
    exact Nat.zero_le _

theorem find_longest_match_valid (a b : Str) :
    ((a.drop (find_longest_match a b).a).take (find_longest_match a b).size
      = (b.drop (find_longest_match a b).b).take (find_longest_match a b).size)
    ∧ (find_longest_match a b).a + (find_longest_match a b).size ≤ a.length
    ∧ (find_longest_match a b).b + (find_longest_match a b).size ≤ b.length := by
  rcases find_longest_match_shape a b with h | ⟨i, j, hi, hj, h⟩
  · rw [h]
    exact ⟨rfl, Nat.zero_le _, Nat.zero_le _⟩
  · rw [h]
    refine ⟨take_commonPrefixLen_eq _ _, ?_, ?_⟩
    · show i + matchSizeAt a b i j ≤ a.length
      have h1 : matchSizeAt a b i j ≤ a.length - i := by
        have := commonPrefixLen_le_left (a.drop i) (b.drop j)
        simpa [matchSizeAt, List.length_drop] using this
      omega
    · show j + matchSizeAt a b i j ≤ b.length
      have h1 : matchSizeAt a b i j ≤ b.length - j := by
        have := commonPrefixLen_le_right (a.drop i) (b.drop j)
        simpa [matchSizeAt, List.length_drop] using this
      omega

theorem longest_match_spec_flm (tail next : Str) :
    longest_match_spec tail next (find_longest_match tail next) :=
  ⟨(find_longest_match_valid tail next).1,
   (find_longest_match_valid tail next).2.1,
   (find_longest_match_valid tail next).2.2,
   fun i j => matchSizeAt_le_size tail next i j⟩

-- ──────────────────────────────────────────────────────────────────────────
-- Claim C2
-- ──────────────────────────────────────────────────────────────────────────

/-- C2: for every previous and next chunk text (with a meaningful window,
`overlap_window ≥ 1`), `_find_overlap` computes the longest contiguous
common substring between the last `overlap_window` characters of the
previous chunk and the next raw chunk, returning its length and text
exactly when it is at least `min_overlap_chars` long and begins at offset 0
of the next chunk, and `(0, "")` otherwise; in particular scenario C: with
previous text ending "...The quick brown fox", next raw text
"brown fox jumps over", `min_overlap_chars=5`, `overlap_window=50`, the
9-character overlap "brown fox" is detected at offset 0 and stripping
yields "...The quick brown fox jumps over". -/
theorem find_overlap_longest_match_correct (cfg : GenerationConfig)
    (prev next : Str) (hw : 1 ≤ cfg.overlap_window) :
    find_overlap_claim cfg prev next
    ∧ find_overlap scenC_cfg scenC_prev scenC_next = (9, "brown fox".toList)
    ∧ scenC_prev ++ scenC_next.drop 9
        = "...The quick brown fox jumps over".toList := by
  refine ⟨⟨?_, longest_match_spec_flm _ _, rfl⟩, by decide, by decide⟩
  unfold pyTailSlice
  rw [if_neg (by omega)]

/-- Witness for C2 at scenario C's inputs. -/
theorem find_overlap_longest_match_correct_witness :
    1 ≤ scenC_cfg.overlap_window
    ∧ (find_overlap_claim scenC_cfg scenC_prev scenC_next
       ∧ find_overlap scenC_cfg scenC_prev scenC_next = (9, "brown fox".toList)
       ∧ scenC_prev ++ scenC_next.drop 9
           = "...The quick brown fox jumps over".toList) :=
  ⟨by decide,
   find_overlap_longest_match_correct scenC_cfg scenC_prev scenC_next (by decide)⟩

-- ──────────────────────────────────────────────────────────────────────────
-- Claim C3 (corrected)
-- ──────────────────────────────────────────────────────────────────────────

/-- Counterexample to C3 as stated: with `min_overlap_chars = 3`,
`overlap_window = 50`, previous chunk "abcdXYZ" and next raw chunk
"abcdEFG", the next chunk does not begin with any suffix of the tail of
length ≥ 3 (first conjunct), yet the dedup step strips 4 characters:
the stored chunk is "EFG" ≠ raw "abcdEFG" and the overlap counter is
incremented (second and third conjuncts).  The code strips whenever the
next chunk begins with any qualifying substring of the tail, not only
with a suffix. -/
theorem dedup_unchanged_suffix_counterexample :
    (∀ k, 3 ≤ k → k ≤ (pyTailSlice cexC3_cfg.overlap_window cexC3_prev).length →
        (pyTailSlice cexC3_cfg.overlap_window cexC3_prev).drop
            ((pyTailSlice cexC3_cfg.overlap_window cexC3_prev).length - k)
          ≠ cexC3_next.take k)
    ∧ dedup_step cexC3_cfg cexC3_prev cexC3_next 0 = ("EFG".toList, 4, 1)
    ∧ dedup_step cexC3_cfg cexC3_prev cexC3_next 0 ≠ (cexC3_next, 0, 0) := by
  refine ⟨?_, by decide, by decide⟩
  intro k h3 hk
  have h7 : k ≤ 7 := by
    have : (pyTailSlice cexC3_cfg.overlap_window cexC3_prev).length = 7 := by decide
    omega
  interval_cases k <;> decide

/-- C3 amended: if the next raw chunk does not begin with any substring
(rather than: any suffix) of the previous chunk's tail of length at least
`min_overlap_chars`, then the stored chunk text equals the raw chunk text
and the overlap counter is unchanged. -/
theorem dedup_unchanged_of_no_qualifying_overlap (cfg : GenerationConfig)
    (prev next : Str) (overlaps : Nat) (hmin : 0 < cfg.min_overlap_chars)
    (h : ∀ i < (pyTailSlice cfg.overlap_window prev).length,
        matchSizeAt (pyTailSlice cfg.overlap_window prev) next i 0
          < cfg.min_overlap_chars) :
    find_overlap cfg prev next = (0, [])
    ∧ dedup_step cfg prev next overlaps = (next, 0, overlaps) := by
  have hfo : find_overlap cfg prev next = (0, []) := by
    rw [find_overlap_eq, if_neg]
    rintro ⟨hsz, hb0⟩
    rcases find_longest_match_shape (pyTailSlice cfg.overlap_window prev) next
        with hsh | ⟨i, j, hi, hj, hsh⟩
    · rw [hsh] at hsz
      have hsz' : cfg.min_overlap_chars ≤ 0 := hsz
      omega
    · rw [hsh] at hsz hb0
      have hj0 : j = 0 := hb0
      subst hj0
      have hlt := h i hi
      have hsz' : cfg.min_overlap_chars
          ≤ matchSizeAt (pyTailSlice cfg.overlap_window prev) next i 0 := hsz
      omega
  refine ⟨hfo, ?_⟩
  rw [dedup_step_eq, hfo]
  rfl

/-- Witness for the amended C3: default config (min 20), previous chunk
"hello world", next chunk "completely different" — nothing is stripped. -/
theorem dedup_unchanged_of_no_qualifying_overlap_witness :
    (0 < default_cfg.min_overlap_chars
     ∧ ∀ i < (pyTailSlice default_cfg.overlap_window wC3_prev).length,
         matchSizeAt (pyTailSlice default_cfg.overlap_window wC3_prev) wC3_next i 0
           < default_cfg.min_overlap_chars)
    ∧ (find_overlap default_cfg wC3_prev wC3_next = (0, [])
       ∧ dedup_step default_cfg wC3_prev wC3_next 0 = (wC3_next, 0, 0)) :=
  ⟨⟨by decide, by decide⟩,
   dedup_unchanged_of_no_qualifying_overlap default_cfg wC3_prev wC3_next 0
     (by decide) (by decide)⟩

-- ──────────────────────────────────────────────────────────────────────────
-- Claim C10
-- ──────────────────────────────────────────────────────────────────────────

/-- C10 (implicit): the stripped character count returned by `_find_overlap`
never exceeds the length of the next raw chunk, never exceeds
`overlap_window` when the window is at least 1, and the stored chunk is
always exactly the raw chunk with its first `stripped` characters removed
(the overlap counter incremented exactly when something was stripped). -/
theorem find_overlap_strip_bounds (cfg : GenerationConfig) (prev next : Str) :
    (find_overlap cfg prev next).1 ≤ next.length
    ∧ (1 ≤ cfg.overlap_window →
        (find_overlap cfg prev next).1 ≤ cfg.overlap_window)
    ∧ ∀ overlaps, dedup_step cfg prev next overlaps
        = (next.drop (find_overlap cfg prev next).1,
           (find_overlap cfg prev next).1,
           if (find_overlap cfg prev next).1 ≠ 0 then overlaps + 1 else overlaps) := by
  have hvalid := find_longest_match_valid (pyTailSlice cfg.overlap_window prev) next
  have hcases :
      (find_overlap cfg prev next).1 = 0
      ∨ (find_overlap cfg prev next).1
          = (find_longest_match (pyTailSlice cfg.overlap_window prev) next).size := by
    rw [find_overlap_eq]
    split
    · exact Or.inr rfl
    · exact Or.inl rfl
  refine ⟨?_, ?_, ?_⟩
  · rcases hcases with h | h
    · omega
    · rw [h]; omega
  · intro hw
    rcases hcases with h | h
    · omega
    · rw [h]
      have htail : (pyTailSlice cfg.overlap_window prev).length ≤ cfg.overlap_window := by
        unfold pyTailSlice
        rw [if_neg (by omega)]
        rw [List.length_drop]
        omega
      omega
  · intro overlaps
    rw [dedup_step_eq]
    split
    · rfl
    · next h0 =>
      have h0' : (find_overlap cfg prev next).1 = 0 := by omega
      rw [h0', List.drop_zero]

/-- Witness for C10 at scenario C's inputs (window 50 ≥ 1). -/
theorem find_overlap_strip_bounds_witness :
    (find_overlap scenC_cfg scenC_prev scenC_next).1 ≤ scenC_next.length
    ∧ (1 ≤ scenC_cfg.overlap_window
       ∧ (find_overlap scenC_cfg scenC_prev scenC_next).1 ≤ scenC_cfg.overlap_window)
    ∧ dedup_step scenC_cfg scenC_prev scenC_next 0
        = (scenC_next.drop (find_overlap scenC_cfg scenC_prev scenC_next).1,
           (find_overlap scenC_cfg scenC_prev scenC_next).1,
           if (find_overlap scenC_cfg scenC_prev scenC_next).1 ≠ 0 then 0 + 1 else 0) :=
  ⟨(find_overlap_strip_bounds scenC_cfg scenC_prev scenC_next).1,
   ⟨by decide, (find_overlap_strip_bounds scenC_cfg scenC_prev scenC_next).2.1 (by decide)⟩,
   (find_overlap_strip_bounds scenC_cfg scenC_prev scenC_next).2.2 0⟩

-- ──────────────────────────────────────────────────────────────────────────
-- Retry wrapper lemmas.
-- ──────────────────────────────────────────────────────────────────────────

theorem send_attempts_ok_eq {ε : Type} (b : ℚ) (oracle : Nat → Except ε (Str × Str))
    (r a : Nat) {t raw : Str} (h : oracle a = .ok (t, raw)) :
    send_attempts b oracle r a
      = ⟨[a], if a = 0 then [] else [b * a],
         .ok (t, FinishReason.from_raw raw, a)⟩ := by
  cases r <;> (unfold send_attempts; rw [h])

theorem send_attempts_error_zero_eq {ε : Type} (b : ℚ)
    (oracle : Nat → Except ε (Str × Str)) (a : Nat) {e : ε}
    (h : oracle a = .error e) :
    send_attempts b oracle 0 a
      = ⟨[a], if a = 0 then [] else [b * a], .error e⟩ := by
  unfold send_attempts; rw [h]

theorem send_attempts_error_succ_eq {ε : Type} (b : ℚ)
    (oracle : Nat → Except ε (Str × Str)) (r a : Nat) {e : ε}
    (h : oracle a = .error e) :
    send_attempts b oracle (r + 1) a
      = ⟨a :: (send_attempts b oracle r (a + 1)).tried,
         (if a = 0 then [] else [b * a]) ++ (send_attempts b oracle r (a + 1)).sleeps,
         (send_attempts b oracle r (a + 1)).result⟩ := by
  conv_lhs => unfold send_attempts
  rw [h]

theorem send_attempts_tried {ε : Type} (b : ℚ)
    (oracle : Nat → Except ε (Str × Str)) :
    ∀ r a : Nat, ∃ k, k ≤ r ∧ (send_attempts b oracle r a).tried = List.range' a (k + 1) := by
  intro r
  induction r with
  | zero =>
    intro a
    refine ⟨0, Nat.le_refl _, ?_⟩
    cases h : oracle a with
    | ok v =>
      obtain ⟨t, raw⟩ := v
      rw [send_attempts_ok_eq b oracle 0 a h]
      rfl
    | error e =>
      rw [send_attempts_error_zero_eq b oracle a h]
      rfl
  | succ r ih =>
    intro a
    cases h : oracle a with
    | ok v =>
      obtain ⟨t, raw⟩ := v
      refine ⟨0, Nat.zero_le _, ?_⟩
      rw [send_attempts_ok_eq b oracle (r + 1) a h]
      rfl
    | error e =>
      obtain ⟨k, hk, htr⟩ := ih (a + 1)
      refine ⟨k + 1, Nat.succ_le_succ hk, ?_⟩
      rw [send_attempts_error_succ_eq b oracle r a h, htr]
      rfl

theorem send_attempts_sleeps {ε : Type} (b : ℚ)
    (oracle : Nat → Except ε (Str × Str)) :
    ∀ r a : Nat, (send_attempts b oracle r a).sleeps
      = ((send_attempts b oracle r a).tried.filter (fun n => n != 0)).map
          (fun n => b * (n : ℚ)) := by
  intro r
  induction r with
  | zero =>
    intro a
    cases h : oracle a with
    | ok v =>
      obtain ⟨t, raw⟩ := v
      rw [send_attempts_ok_eq b oracle 0 a h]
      by_cases ha : a = 0
      · subst ha; rfl
      · have hbne : (a != 0) = true := by simpa using ha
        simp [List.filter_cons, hbne, ha]
    | error e =>
      rw [send_attempts_error_zero_eq b oracle a h]
      by_cases ha : a = 0
      · subst ha; rfl
      · have hbne : (a != 0) = true := by simpa using ha
        simp [List.filter_cons, hbne, ha]
  | succ r ih =>
    intro a
    cases h : oracle a with
    | ok v =>
      obtain ⟨t, raw⟩ := v
      rw [send_attempts_ok_eq b oracle (r + 1) a h]
      by_cases ha : a = 0
      · subst ha; rfl
      · have hbne : (a != 0) = true := by simpa using ha
        simp [List.filter_cons, hbne, ha]
    | error e =>
      rw [send_attempts_error_succ_eq b oracle r a h, ih (a + 1)]
      by_cases ha : a = 0
      · subst ha
        simp [List.filter_cons]
      · have hbne : (a != 0) = true := by simpa using ha
        simp [List.filter_cons, hbne, ha]

theorem send_attempts_result_ok {ε : Type} (b : ℚ)
    (oracle : Nat → Except ε (Str × Str)) :
    ∀ r a t f k, (send_attempts b oracle r a).result = .ok (t, f, k) →
      a ≤ k ∧ k ≤ a + r
      ∧ (∃ raw, oracle k = .ok (t, raw) ∧ f = FinishReason.from_raw raw)
      ∧ ∀ i, a ≤ i → i < k → ∃ e, oracle i = .error e := by
  intro r
  induction r with
  | zero =>
    intro a t f k hres
    cases h : oracle a with
    | ok v =>
      obtain ⟨t', raw⟩ := v
      rw [send_attempts_ok_eq b oracle 0 a h] at hres
      simp only [Except.ok.injEq, Prod.mk.injEq] at hres
      obtain ⟨ht, hf, hk⟩ := hres
      subst ht; subst hf; subst hk
      exact ⟨Nat.le_refl _, by omega, ⟨raw, h, rfl⟩, fun i h1 h2 => absurd h2 (by omega)⟩
    | error e =>
      rw [send_attempts_error_zero_eq b oracle a h] at hres
      exact absurd hres (by simp)
  | succ r ih =>
    intro a t f k hres
    cases h : oracle a with
    | ok v =>
      obtain ⟨t', raw⟩ := v
      rw [send_attempts_ok_eq b oracle (r + 1) a h] at hres
      simp only [Except.ok.injEq, Prod.mk.injEq] at hres
      obtain ⟨ht, hf, hk⟩ := hres
      subst ht; subst hf; subst hk
      exact ⟨Nat.le_refl _, by omega, ⟨raw, h, rfl⟩, fun i h1 h2 => absurd h2 (by omega)⟩
    | error e =>
      rw [send_attempts_error_succ_eq b oracle r a h] at hres
      obtain ⟨h1, h2, h3, h4⟩ := ih (a + 1) t f k hres
      refine ⟨by omega, by omega, h3, ?_⟩
      intro i hai hik
      rcases Nat.eq_or_lt_of_le hai with rfl | hlt
      · exact ⟨e, h⟩
      · exact h4 i (by omega) hik

theorem send_attempts_result_error {ε : Type} (b : ℚ)
    (oracle : Nat → Except ε (Str × Str)) :
    ∀ r a e, (send_attempts b oracle r a).result = .error e →
      oracle (a + r) = .error e
      ∧ ∀ i, a ≤ i → i ≤ a + r → ∃ e', oracle i = .error e' := by
  intro r
  induction r with
  | zero =>
    intro a e hres
    cases h : oracle a with
    | ok v =>
      obtain ⟨t', raw⟩ := v
      rw [send_attempts_ok_eq b oracle 0 a h] at hres
      exact absurd hres (by simp)
    | error e0 =>
      rw [send_attempts_error_zero_eq b oracle a h] at hres
      simp only [Except.error.injEq] at hres
      subst hres
      refine ⟨by rw [Nat.add_zero]; exact h, ?_⟩
      intro i h1 h2
      obtain rfl : i = a := by omega
      exact ⟨e0, h⟩
  | succ r ih =>
    intro a e hres
    cases h : oracle a with
    | ok v =>
      obtain ⟨t', raw⟩ := v
      rw [send_attempts_ok_eq b oracle (r + 1) a h] at hres
      exact absurd hres (by simp)
    | error e0 =>
      rw [send_attempts_error_succ_eq b oracle r a h] at hres
      obtain ⟨h1, h2⟩ := ih (a + 1) e hres
      refine ⟨by rw [show a + (r + 1) = (a + 1) + r by omega]; exact h1, ?_⟩
      intro i hai hile
      rcases Nat.eq_or_lt_of_le hai with rfl | hlt
      · exact ⟨e0, h⟩
      · exact h2 i (by omega) (by omega)

-- ──────────────────────────────────────────────────────────────────────────
-- Claim C5
-- ──────────────────────────────────────────────────────────────────────────

/-- C5: in the retry wrapper, the sleeps performed are exactly one per
attempt after the first, each lasting `retry_backoff × attempt_number`
seconds (a linear sequence `backoff*1, backoff*2, backoff*3, ...`), and no
sleep precedes attempt 0: the attempts consulted are `0, 1, ..., k` in
order and the sleep trace is the image of `1, ..., k` under
multiplication by `retry_backoff`. -/
theorem retry_backoff_linear {ε : Type} (cfg : GenerationConfig)
    (oracle : Nat → Except ε (Str × Str)) :
    (send_with_retry cfg oracle).sleeps
      = ((send_with_retry cfg oracle).tried.filter (fun n => n != 0)).map
          (fun n => cfg.retry_backoff * (n : ℚ))
    ∧ ∃ k, (send_with_retry cfg oracle).tried = List.range' 0 (k + 1)
        ∧ (send_with_retry cfg oracle).sleeps
            = (List.range' 1 k).map (fun n => cfg.retry_backoff * (n : ℚ)) := by
  obtain ⟨k, hkle, htr⟩ := send_attempts_tried cfg.retry_backoff oracle cfg.max_retries 0
  have hsleeps := send_attempts_sleeps cfg.retry_backoff oracle cfg.max_retries 0
  refine ⟨hsleeps, k, htr, ?_⟩
  have h01 : List.range' 0 (k + 1) = 0 :: List.range' 1 k := List.range'_succ 0 k 1
  rw [show (send_with_retry cfg oracle).sleeps
        = (send_attempts cfg.retry_backoff oracle cfg.max_retries 0).sleeps from rfl,
      hsleeps, htr, h01, List.filter_cons]
  simp only [bne_self_eq_false, Bool.false_eq_true, if_false]
  rw [List.filter_eq_self.mpr]
  intro x hx
  rcases List.mem_range'.mp hx with ⟨i, hi, rfl⟩
  simp

-- ──────────────────────────────────────────────────────────────────────────
-- Driver lemmas: equations of the loop, then its invariants.
-- ──────────────────────────────────────────────────────────────────────────

theorem generate_loop_zero_eq {ε : Type} (cfg : GenerationConfig)
    (oracle : Nat → Str → Nat → Except ε (Str × Str)) (prompt : Str)
    (ci retries overlaps : Nat) (chunks : List Chunk) (trace : List Exchange) :
    generate_loop cfg oracle prompt 0 ci chunks retries overlaps trace
      = (trace, .error .ceilingExceeded) := rfl

theorem generate_loop_send_error_eq {ε : Type} (cfg : GenerationConfig)
    (oracle : Nat → Str → Nat → Except ε (Str × Str)) (prompt : Str)
    (r ci retries overlaps : Nat) (chunks : List Chunk) (trace : List Exchange)
    {e : ε}
    (h : (send_with_retry cfg (oracle ci (loop_message cfg prompt ci chunks))).result
          = .error e) :
    generate_loop cfg oracle prompt (r + 1) ci chunks retries overlaps trace
      = (trace, .error (.retryExhausted e)) := by
  conv_lhs => unfold generate_loop
  rw [h]

theorem generate_loop_stop_eq {ε : Type} (cfg : GenerationConfig)
    (oracle : Nat → Str → Nat → Except ε (Str × Str)) (prompt : Str)
    (r ci retries overlaps : Nat) (chunks : List Chunk) (trace : List Exchange)
    {raw_text : Str} {attempts : Nat}
    (h : (send_with_retry cfg (oracle ci (loop_message cfg prompt ci chunks))).result
          = .ok (raw_text, .stop, attempts)) :
    generate_loop cfg oracle prompt (r + 1) ci chunks retries overlaps trace
      = (trace ++ [⟨ci, .stop, attempts⟩],
         .ok (chunks ++ [⟨ci, (store_step cfg chunks raw_text overlaps).1, .stop,
                (store_step cfg chunks raw_text overlaps).2.1⟩],
              retries + attempts,
              (store_step cfg chunks raw_text overlaps).2.2, .stop)) := by
  conv_lhs => unfold generate_loop
  rw [h]

theorem generate_loop_max_eq {ε : Type} (cfg : GenerationConfig)
    (oracle : Nat → Str → Nat → Except ε (Str × Str)) (prompt : Str)
    (r ci retries overlaps : Nat) (chunks : List Chunk) (trace : List Exchange)
    {raw_text : Str} {attempts : Nat}
    (h : (send_with_retry cfg (oracle ci (loop_message cfg prompt ci chunks))).result
          = .ok (raw_text, .max_tokens, attempts)) :
    generate_loop cfg oracle prompt (r + 1) ci chunks retries overlaps trace
      = generate_loop cfg oracle prompt r (ci + 1)
          (chunks ++ [⟨ci, (store_step cfg chunks raw_text overlaps).1, .max_tokens,
              (store_step cfg chunks raw_text overlaps).2.1⟩])
          (retries + attempts)
          (store_step cfg chunks raw_text overlaps).2.2
          (trace ++ [⟨ci, .max_tokens, attempts⟩]) := by
  conv_lhs => unfold generate_loop
  rw [h]

theorem generate_loop_noncont_eq {ε : Type} (cfg : GenerationConfig)
    (oracle : Nat → Str → Nat → Except ε (Str × Str)) (prompt : Str)
    (r ci retries overlaps : Nat) (chunks : List Chunk) (trace : List Exchange)
    {raw_text : Str} {f : FinishReason} {attempts : Nat}
    (h : (send_with_retry cfg (oracle ci (loop_message cfg prompt ci chunks))).result
          = .ok (raw_text, f, attempts))
    (hf1 : f ≠ .stop) (hf2 : f ≠ .max_tokens) :
    generate_loop cfg oracle prompt (r + 1) ci chunks retries overlaps trace
      = (trace ++ [⟨ci, f, attempts⟩],
         .error (.nonContinuableFinish ci f)) := by
  conv_lhs => unfold generate_loop
  rw [h]
  cases f with
  | stop => exact absurd rfl hf1
  | max_tokens => exact absurd rfl hf2
  | safety => rfl
  | recitation => rfl
  | other => rfl

theorem generate_blank_eq {ε : Type} (cfg : GenerationConfig)
    (oracle : Nat → Str → Nat → Except ε (Str × Str)) {prompt : Str}
    (h : is_blank prompt = true) :
    generate_until_complete cfg oracle prompt = ([], .error .invalidArgument) := by
  unfold generate_until_complete
  rw [if_pos h]

theorem generate_not_blank_eq {ε : Type} (cfg : GenerationConfig)
    (oracle : Nat → Str → Nat → Except ε (Str × Str)) {prompt : Str}
    (h : is_blank prompt = false) :
    generate_until_complete cfg oracle prompt
      = (match generate_loop cfg oracle prompt cfg.max_chunks 0 [] 0 0 [] with
         | (trace, .error e) => (trace, .error e)
         | (trace, .ok (chunks, retries, overlaps, finish)) =>
           (trace, .ok
             { text := stitch (chunks.map (fun c => c.text))
               chunks_consumed := chunks.length
               finish_reason := finish
               retries_used := retries
               overlaps_removed := overlaps
               total_chars := (stitch (chunks.map (fun c => c.text))).length })) := by
  unfold generate_until_complete
  rw [if_neg (by simp [h])]

theorem generate_loop_ok_shape {ε : Type} (cfg : GenerationConfig)
    (oracle : Nat → Str → Nat → Except ε (Str × Str)) (prompt : Str) :
    ∀ (r ci : Nat) (chunks : List Chunk) (retries overlaps : Nat)
      (trace tr : List Exchange) (cs : List Chunk) (rr oo : Nat)
      (fin : FinishReason),
      generate_loop cfg oracle prompt r ci chunks retries overlaps trace
        = (tr, .ok (cs, rr, oo, fin)) →
      fin = .stop
      ∧ ∃ pre c, cs = chunks ++ (pre ++ [c])
          ∧ pre.length + 1 ≤ r
          ∧ (pre ++ [c]).map (fun x => x.index) = List.range' ci (pre.length + 1)
          ∧ (∀ x ∈ pre, x.finish = .max_tokens)
          ∧ c.finish = .stop := by
  intro r
  induction r with
  | zero =>
    intro ci chunks retries overlaps trace tr cs rr oo fin h
    rw [generate_loop_zero_eq] at h
    exact absurd h (by simp)
  | succ r ih =>
    intro ci chunks retries overlaps trace tr cs rr oo fin h
    cases hsend : (send_with_retry cfg
        (oracle ci (loop_message cfg prompt ci chunks))).result with
    | error e =>
      rw [generate_loop_send_error_eq cfg oracle prompt r ci retries overlaps
            chunks trace hsend] at h
      exact absurd h (by simp)
    | ok v =>
      obtain ⟨raw_text, fin0, attempts⟩ := v
      cases fin0 with
      | stop =>
        rw [generate_loop_stop_eq cfg oracle prompt r ci retries overlaps
              chunks trace hsend] at h
        simp only [Prod.mk.injEq, Except.ok.injEq] at h
        obtain ⟨htr, hcs, hrr, hoo, hfin⟩ := h
        refine ⟨hfin.symm, [], _, hcs.symm, by simp, rfl, ?_, rfl⟩
        intro x hx
        exact absurd hx (List.not_mem_nil _)
      | max_tokens =>
        rw [generate_loop_max_eq cfg oracle prompt r ci retries overlaps
              chunks trace hsend] at h
        obtain ⟨hfin, pre', c, hcs, hlen, hmap, hpre, hc⟩ :=
          ih (ci + 1) _ _ _ _ tr cs rr oo fin h
        refine ⟨hfin,
          ⟨ci, (store_step cfg chunks raw_text overlaps).1, .max_tokens,
            (store_step cfg chunks raw_text overlaps).2.1⟩ :: pre', c, ?_, ?_, ?_, ?_, hc⟩
        · rw [hcs, List.append_assoc]
          rfl
        · simpa using hlen
        · show ci :: (pre' ++ [c]).map (fun x => x.index)
            = List.range' ci (pre'.length + 1 + 1)
          rw [hmap]
          rfl
        · intro x hx
          rcases List.mem_cons.mp hx with rfl | hx'
          · rfl
          · exact hpre x hx'
      | safety =>
        rw [generate_loop_noncont_eq cfg oracle prompt r ci retries overlaps
              chunks trace hsend (by simp) (by simp)] at h
        exact absurd h (by simp)
      | recitation =>
        rw [generate_loop_noncont_eq cfg oracle prompt r ci retries overlaps
              chunks trace hsend (by simp) (by simp)] at h
        exact absurd h (by simp)
      | other =>
        rw [generate_loop_noncont_eq cfg oracle prompt r ci retries overlaps
              chunks trace hsend (by simp) (by simp)] at h
        exact absurd h (by simp)

theorem generate_loop_all_max {ε : Type} (cfg : GenerationConfig)
    (oracle : Nat → Str → Nat → Except ε (Str × Str)) (prompt : Str) :
    ∀ (r ci : Nat) (chunks : List Chunk) (retries overlaps : Nat)
      (trace : List Exchange),
      (∀ j msg, ci ≤ j → j < ci + r →
        ∃ t a, (send_with_retry cfg (oracle j msg)).result = .ok (t, .max_tokens, a)) →
      ∃ newtrace,
        generate_loop cfg oracle prompt r ci chunks retries overlaps trace
          = (trace ++ newtrace, .error .ceilingExceeded)
        ∧ newtrace.length = r
        ∧ newtrace.map (fun x => x.chunk_index) = List.range' ci r := by
  intro r
  induction r with
  | zero =>
    intro ci chunks retries overlaps trace hmax
    exact ⟨[], by rw [generate_loop_zero_eq, List.append_nil], rfl, rfl⟩
  | succ r ih =>
    intro ci chunks retries overlaps trace hmax
    obtain ⟨t, a, hsend⟩ :=
      hmax ci (loop_message cfg prompt ci chunks) (Nat.le_refl _) (by omega)
    rw [generate_loop_max_eq cfg oracle prompt r ci retries overlaps chunks
          trace hsend]
    obtain ⟨nt, heq, hlen, hmap⟩ :=
      ih (ci + 1) _ _ _ (trace ++ [⟨ci, .max_tokens, a⟩])
        (fun j msg h1 h2 => hmax j msg (by omega) (by omega))
    refine ⟨⟨ci, .max_tokens, a⟩ :: nt, ?_, by simp [hlen], ?_⟩
    · rw [heq, List.append_assoc]
      rfl
    · show ci :: nt.map (fun x => x.chunk_index) = List.range' ci (r + 1)
      rw [hmap]
      rfl

theorem generate_loop_noncont_at {ε : Type} (cfg : GenerationConfig)
    (oracle : Nat → Str → Nat → Except ε (Str × Str)) (prompt : Str)
    (f : FinishReason) (hf1 : f ≠ .stop) (hf2 : f ≠ .max_tokens) :
    ∀ (r ci : Nat) (chunks : List Chunk) (retries overlaps : Nat)
      (trace : List Exchange) (j : Nat),
      ci ≤ j → j < ci + r →
      (∀ j' msg, ci ≤ j' → j' < j →
        ∃ t a, (send_with_retry cfg (oracle j' msg)).result = .ok (t, .max_tokens, a)) →
      (∀ msg, ∃ t a, (send_with_retry cfg (oracle j msg)).result = .ok (t, f, a)) →
      (generate_loop cfg oracle prompt r ci chunks retries overlaps trace).2
        = .error (.nonContinuableFinish j f) := by
  intro r
  induction r with
  | zero =>
    intro ci chunks retries overlaps trace j h1 h2 hprev hbad
    omega
  | succ r ih =>
    intro ci chunks retries overlaps trace j h1 h2 hprev hbad
    rcases Nat.eq_or_lt_of_le h1 with rfl | hlt
    · obtain ⟨t, a, hsend⟩ := hbad (loop_message cfg prompt ci chunks)
      rw [generate_loop_noncont_eq cfg oracle prompt r ci retries overlaps
            chunks trace hsend hf1 hf2]
    · obtain ⟨t, a, hsend⟩ :=
        hprev ci (loop_message cfg prompt ci chunks) (Nat.le_refl _) hlt
      rw [generate_loop_max_eq cfg oracle prompt r ci retries overlaps chunks
            trace hsend]
      exact ih (ci + 1) _ _ _ _ j (by omega) (by omega)
        (fun j' msg ha hb => hprev j' msg (by omega) hb) hbad

theorem generate_loop_retry_exhausted_at {ε : Type} (cfg : GenerationConfig)
    (oracle : Nat → Str → Nat → Except ε (Str × Str)) (prompt : Str) (e : ε) :
    ∀ (r ci : Nat) (chunks : List Chunk) (retries overlaps : Nat)
      (trace : List Exchange) (j : Nat),
      ci ≤ j → j < ci + r →
      (∀ j' msg, ci ≤ j' → j' < j →
        ∃ t a, (send_with_retry cfg (oracle j' msg)).result = .ok (t, .max_tokens, a)) →
      (∀ msg, (send_with_retry cfg (oracle j msg)).result = .error e) →
      (generate_loop cfg oracle prompt r ci chunks retries overlaps trace).2
        = .error (.retryExhausted e) := by
  intro r
  induction r with
  | zero =>
    intro ci chunks retries overlaps trace j h1 h2 hprev hbad
    omega
  | succ r ih =>
    intro ci chunks retries overlaps trace j h1 h2 hprev hbad
    rcases Nat.eq_or_lt_of_le h1 with rfl | hlt
    · rw [generate_loop_send_error_eq cfg oracle prompt r ci retries overlaps
            chunks trace (hbad (loop_message cfg prompt ci chunks))]
    · obtain ⟨t, a, hsend⟩ :=
        hprev ci (loop_message cfg prompt ci chunks) (Nat.le_refl _) hlt
      rw [generate_loop_max_eq cfg oracle prompt r ci retries overlaps chunks
            trace hsend]
      exact ih (ci + 1) _ _ _ _ j (by omega) (by omega)
        (fun j' msg ha hb => hprev j' msg (by omega) hb) hbad

theorem generate_loop_ne_invalid {ε : Type} (cfg : GenerationConfig)
    (oracle : Nat → Str → Nat → Except ε (Str × Str)) (prompt : Str) :
    ∀ (r ci : Nat) (chunks : List Chunk) (retries overlaps : Nat)
      (trace : List Exchange),
      (generate_loop cfg oracle prompt r ci chunks retries overlaps trace).2
        ≠ .error .invalidArgument := by
  intro r
  induction r with
  | zero =>
    intro ci chunks retries overlaps trace
    rw [generate_loop_zero_eq]
    simp
  | succ r ih =>
    intro ci chunks retries overlaps trace
    cases hsend : (send_with_retry cfg
        (oracle ci (loop_message cfg prompt ci chunks))).result with
    | error e =>
      rw [generate_loop_send_error_eq cfg oracle prompt r ci retries overlaps
            chunks trace hsend]
      simp
    | ok v =>
      obtain ⟨raw_text, fin0, attempts⟩ := v
      cases fin0 with
      | stop =>
        rw [generate_loop_stop_eq cfg oracle prompt r ci retries overlaps
              chunks trace hsend]
        simp
      | max_tokens =>
        rw [generate_loop_max_eq cfg oracle prompt r ci retries overlaps
              chunks trace hsend]
        exact ih (ci + 1) _ _ _ _
      | safety =>
        rw [generate_loop_noncont_eq cfg oracle prompt r ci retries overlaps
              chunks trace hsend (by simp) (by simp)]
        simp
      | recitation =>
        rw [generate_loop_noncont_eq cfg oracle prompt r ci retries overlaps
              chunks trace hsend (by simp) (by simp)]
        simp
      | other =>
        rw [generate_loop_noncont_eq cfg oracle prompt r ci retries overlaps
              chunks trace hsend (by simp) (by simp)]
        simp

theorem generate_error_eq {ε : Type} (cfg : GenerationConfig)
    (oracle : Nat → Str → Nat → Except ε (Str × Str)) {prompt : Str}
    (hb : is_blank prompt = false) {tr : List Exchange} {e : GenError ε}
    (hloop : generate_loop cfg oracle prompt cfg.max_chunks 0 [] 0 0 []
      = (tr, .error e)) :
    generate_until_complete cfg oracle prompt = (tr, .error e) := by
  rw [generate_not_blank_eq cfg oracle hb, hloop]

theorem generate_ok_eq {ε : Type} (cfg : GenerationConfig)
    (oracle : Nat → Str → Nat → Except ε (Str × Str)) {prompt : Str}
    (hb : is_blank prompt = false) {tr : List Exchange} {cs : List Chunk}
    {rr oo : Nat} {fin : FinishReason}
    (hloop : generate_loop cfg oracle prompt cfg.max_chunks 0 [] 0 0 []
      = (tr, .ok (cs, rr, oo, fin))) :
    generate_until_complete cfg oracle prompt
      = (tr, .ok
          { text := stitch (cs.map (fun c => c.text))
            chunks_consumed := cs.length
            finish_reason := fin
            retries_used := rr
            overlaps_removed := oo
            total_chars := (stitch (cs.map (fun c => c.text))).length }) := by
  rw [generate_not_blank_eq cfg oracle hb, hloop]

-- ──────────────────────────────────────────────────────────────────────────
-- Claim C1
-- ──────────────────────────────────────────────────────────────────────────

/-- C1: whenever `generate_until_complete` returns a `GenerationResult`,
`chunks_consumed ≤ max_chunks`, the result's finish reason is Stop, the
final stored chunk's finish reason is Stop, and every earlier chunk's
finish reason is MaxTokens (so no chunk before the final one is Stop). -/
theorem generate_success_finish_invariants {ε : Type} (cfg : GenerationConfig)
    (oracle : Nat → Str → Nat → Except ε (Str × Str)) (prompt : Str)
    (tr : List Exchange) (res : GenerationResult)
    (h : generate_until_complete cfg oracle prompt = (tr, .ok res)) :
    res.chunks_consumed ≤ cfg.max_chunks
    ∧ res.finish_reason = .stop
    ∧ ∃ pre c rr oo,
        generate_loop cfg oracle prompt cfg.max_chunks 0 [] 0 0 []
          = (tr, .ok (pre ++ [c], rr, oo, .stop))
        ∧ res.chunks_consumed = pre.length + 1
        ∧ (∀ x ∈ pre, x.finish = .max_tokens)
        ∧ c.finish = .stop := by
  by_cases hb : is_blank prompt = true
  · rw [generate_blank_eq cfg oracle hb] at h
    exact absurd h (by simp)
  · have hb' : is_blank prompt = false := by
      revert hb; cases is_blank prompt <;> simp
    rw [generate_not_blank_eq cfg oracle hb'] at h
    cases hloop : generate_loop cfg oracle prompt cfg.max_chunks 0 [] 0 0 [] with
    | mk tr0 out =>
      rw [hloop] at h
      cases out with
      | error e => exact absurd h (by simp)
      | ok val =>
        obtain ⟨cs, rr, oo, fin⟩ := val
        simp only [Prod.mk.injEq, Except.ok.injEq] at h
        obtain ⟨htr, hres⟩ := h
        obtain ⟨hfin, pre, c, hcs, hlen, hmap, hpre, hc⟩ :=
          generate_loop_ok_shape cfg oracle prompt cfg.max_chunks 0 [] 0 0 []
            tr0 cs rr oo fin hloop
        subst hfin
        subst htr
        rw [List.nil_append] at hcs
        subst hcs
        refine ⟨?_, ?_, pre, c, rr, oo, rfl, ?_, hpre, hc⟩
        · rw [← hres]
          show (pre ++ [c]).length ≤ cfg.max_chunks
          simpa using hlen
        · rw [← hres]
        · rw [← hres]
          simp

/-- Witness for C1: a one-chunk session ending in STOP. -/
theorem generate_success_finish_invariants_witness :
    res_stop.chunks_consumed ≤ cfg_small.max_chunks
    ∧ res_stop.finish_reason = .stop
    ∧ ∃ pre c rr oo,
        generate_loop cfg_small oracle_stop prompt_hi cfg_small.max_chunks 0 [] 0 0 []
          = (tr_stop, .ok (pre ++ [c], rr, oo, .stop))
        ∧ res_stop.chunks_consumed = pre.length + 1
        ∧ (∀ x ∈ pre, x.finish = .max_tokens)
        ∧ c.finish = .stop :=
  generate_success_finish_invariants cfg_small oracle_stop prompt_hi
    tr_stop res_stop rfl

-- ──────────────────────────────────────────────────────────────────────────
-- Claim C9
-- ──────────────────────────────────────────────────────────────────────────

/-- C9: for every successful session, the returned text is exactly the
stored chunk texts joined in ascending chunk-index order with no separator
(the stored chunk indices are `0, 1, ..., n-1` in order), `total_chars` is
the length of that text, and `chunks_consumed` is the number of stored
chunks. -/
theorem generate_result_stitch_order {ε : Type} (cfg : GenerationConfig)
    (oracle : Nat → Str → Nat → Except ε (Str × Str)) (prompt : Str)
    (tr : List Exchange) (res : GenerationResult)
    (h : generate_until_complete cfg oracle prompt = (tr, .ok res)) :
    ∃ cs rr oo,
      generate_loop cfg oracle prompt cfg.max_chunks 0 [] 0 0 []
        = (tr, .ok (cs, rr, oo, .stop))
      ∧ res.text = stitch (cs.map (fun c => c.text))
      ∧ res.total_chars = res.text.length
      ∧ res.chunks_consumed = cs.length
      ∧ cs.map (fun x => x.index) = List.range cs.length := by
  by_cases hb : is_blank prompt = true
  · rw [generate_blank_eq cfg oracle hb] at h
    exact absurd h (by simp)
  · have hb' : is_blank prompt = false := by
      revert hb; cases is_blank prompt <;> simp
    rw [generate_not_blank_eq cfg oracle hb'] at h
    cases hloop : generate_loop cfg oracle prompt cfg.max_chunks 0 [] 0 0 [] with
    | mk tr0 out =>
      rw [hloop] at h
      cases out with
      | error e => exact absurd h (by simp)
      | ok val =>
        obtain ⟨cs, rr, oo, fin⟩ := val
        simp only [Prod.mk.injEq, Except.ok.injEq] at h
        obtain ⟨htr, hres⟩ := h
        obtain ⟨hfin, pre, c, hcs, hlen, hmap, hpre, hc⟩ :=
          generate_loop_ok_shape cfg oracle prompt cfg.max_chunks 0 [] 0 0 []
            tr0 cs rr oo fin hloop
        subst hfin
        subst htr
        rw [List.nil_append] at hcs
        refine ⟨cs, rr, oo, rfl, ?_, ?_, ?_, ?_⟩
        · rw [← hres]
        · rw [← hres]
        · rw [← hres]
        · rw [hcs, List.range_eq_range']
          have hlen2 : (pre ++ [c]).length = pre.length + 1 := by simp
          rw [hlen2]
          exact hmap

/-- Witness for C9: the two-chunk scenario C session (one dedup applied). -/
theorem generate_result_stitch_order_witness :
    ∃ cs rr oo,
      generate_loop cfg_session oracle_two prompt_hi cfg_session.max_chunks 0 [] 0 0 []
        = (tr_two, .ok (cs, rr, oo, .stop))
      ∧ res_two.text = stitch (cs.map (fun c => c.text))
      ∧ res_two.total_chars = res_two.text.length
      ∧ res_two.chunks_consumed = cs.length
      ∧ cs.map (fun x => x.index) = List.range cs.length :=
  generate_result_stitch_order cfg_session oracle_two prompt_hi
    tr_two res_two rfl

-- ──────────────────────────────────────────────────────────────────────────
-- Claim C6
-- ──────────────────────────────────────────────────────────────────────────

/-- C6: when every one of the `max_chunks` chunk exchanges classifies as
MaxTokens (Stop is never reached), the driver performs exactly
`max_chunks` exchanges — the trace lists chunk indices `0..max_chunks-1`
in order — and then fails with `CeilingExceeded`, returning no
`GenerationResult`. -/
theorem generate_ceiling_exceeded {ε : Type} (cfg : GenerationConfig)
    (oracle : Nat → Str → Nat → Except ε (Str × Str)) (prompt : Str)
    (hb : is_blank prompt = false)
    (hmax : ∀ j msg, j < cfg.max_chunks →
      ∃ t a, (send_with_retry cfg (oracle j msg)).result = .ok (t, .max_tokens, a)) :
    (generate_until_complete cfg oracle prompt).2 = .error .ceilingExceeded
    ∧ (generate_until_complete cfg oracle prompt).1.length = cfg.max_chunks
    ∧ (generate_until_complete cfg oracle prompt).1.map (fun x => x.chunk_index)
        = List.range cfg.max_chunks := by
  obtain ⟨nt, heq, hlen, hmap⟩ :=
    generate_loop_all_max cfg oracle prompt cfg.max_chunks 0 [] 0 0 []
      (fun j msg h1 h2 => hmax j msg (by omega))
  rw [List.nil_append] at heq
  rw [generate_error_eq cfg oracle hb heq]
  exact ⟨rfl, hlen, by rw [hmap, List.range_eq_range']⟩

/-- Witness for C6 with `max_chunks = 50`: the ceiling is hit after the
50th chunk. -/
theorem generate_ceiling_exceeded_witness :
    (generate_until_complete cfg_ceiling oracle_max prompt_hi).2
      = .error .ceilingExceeded
    ∧ (generate_until_complete cfg_ceiling oracle_max prompt_hi).1.length
      = cfg_ceiling.max_chunks
    ∧ (generate_until_complete cfg_ceiling oracle_max prompt_hi).1.map
        (fun x => x.chunk_index) = List.range cfg_ceiling.max_chunks :=
  generate_ceiling_exceeded cfg_ceiling oracle_max prompt_hi rfl
    (fun _ _ _ => ⟨"x".toList, 0, rfl⟩)

-- ──────────────────────────────────────────────────────────────────────────
-- Claim C7
-- ──────────────────────────────────────────────────────────────────────────

/-- C7: when some chunk's classified finish reason is Safety, Recitation or
Other (all earlier exchanges being MaxTokens continuations), the driver
fails at that chunk with `NonContinuableFinish`: no `GenerationResult` is
returned, and the error value carries only the chunk index and reason — no
accumulated text is observable by the caller. -/
theorem generate_non_continuable_aborts {ε : Type} (cfg : GenerationConfig)
    (oracle : Nat → Str → Nat → Except ε (Str × Str)) (prompt : Str)
    (j : Nat) (f : FinishReason)
    (hb : is_blank prompt = false) (hj : j < cfg.max_chunks)
    (hf : f = .safety ∨ f = .recitation ∨ f = .other)
    (hprev : ∀ j' msg, j' < j →
      ∃ t a, (send_with_retry cfg (oracle j' msg)).result = .ok (t, .max_tokens, a))
    (hbad : ∀ msg, ∃ t a,
      (send_with_retry cfg (oracle j msg)).result = .ok (t, f, a)) :
    (generate_until_complete cfg oracle prompt).2
      = .error (.nonContinuableFinish j f)
    ∧ ∀ res, (generate_until_complete cfg oracle prompt).2 ≠ .ok res := by
  have hf1 : f ≠ .stop := by rcases hf with rfl | rfl | rfl <;> simp
  have hf2 : f ≠ .max_tokens := by rcases hf with rfl | rfl | rfl <;> simp
  have hloop2 := generate_loop_noncont_at cfg oracle prompt f hf1 hf2
      cfg.max_chunks 0 [] 0 0 [] j (Nat.zero_le _) (by omega)
      (fun j' msg h1 h2 => hprev j' msg h2) hbad
  cases hp : generate_loop cfg oracle prompt cfg.max_chunks 0 [] 0 0 [] with
  | mk tr0 out =>
    rw [hp] at hloop2
    cases out with
    | error e0 =>
      have he : e0 = GenError.nonContinuableFinish j f := by simpa using hloop2
      subst he
      rw [generate_error_eq cfg oracle hb hp]
      exact ⟨rfl, fun res => by simp⟩
    | ok val => exact absurd hloop2 (by simp)

/-- Witness for C7: chunk 0 is MaxTokens, chunk 1 classifies as Safety. -/
theorem generate_non_continuable_aborts_witness :
    (generate_until_complete cfg_five oracle_safety prompt_hi).2
      = .error (.nonContinuableFinish 1 .safety)
    ∧ ∀ res, (generate_until_complete cfg_five oracle_safety prompt_hi).2
      ≠ .ok res :=
  generate_non_continuable_aborts cfg_five oracle_safety prompt_hi 1 .safety
    rfl (by decide) (Or.inl rfl)
    (fun j' msg hj' => by
      obtain rfl : j' = 0 := Nat.lt_one_iff.mp hj'
      exact ⟨"a".toList, 0, rfl⟩)
    (fun msg => ⟨"b".toList, 0, rfl⟩)

-- ──────────────────────────────────────────────────────────────────────────
-- Claim C8
-- ──────────────────────────────────────────────────────────────────────────

/-- C8: for every blank prompt (empty or whitespace-only),
`generate_until_complete` fails with `InvalidArgument` with an empty
exchange trace (no request is dispatched) and the outcome does not depend
on the remote service at all; for every non-blank prompt the validation
passes (the outcome is never `InvalidArgument`). -/
theorem generate_blank_prompt_validation {ε : Type} (cfg : GenerationConfig)
    (oracle oracle' : Nat → Str → Nat → Except ε (Str × Str)) (prompt : Str) :
    (is_blank prompt = true →
      generate_until_complete cfg oracle prompt = ([], .error .invalidArgument)
      ∧ generate_until_complete cfg oracle prompt
          = generate_until_complete cfg oracle' prompt)
    ∧ (is_blank prompt = false →
      (generate_until_complete cfg oracle prompt).2 ≠ .error .invalidArgument) := by
  constructor
  · intro hb
    rw [generate_blank_eq cfg oracle hb, generate_blank_eq cfg oracle' hb]
    exact ⟨rfl, rfl⟩
  · intro hb
    cases hp : generate_loop cfg oracle prompt cfg.max_chunks 0 [] 0 0 [] with
    | mk tr0 out =>
      cases out with
      | error e =>
        rw [generate_error_eq cfg oracle hb hp]
        have hni := generate_loop_ne_invalid cfg oracle prompt cfg.max_chunks 0 [] 0 0 []
        rw [hp] at hni
        simpa using hni
      | ok val =>
        obtain ⟨cs, rr, oo, fin⟩ := val
        rw [generate_ok_eq cfg oracle hb hp]
        simp

/-- Witness for C8: the empty prompt is rejected with no exchange, and the
non-blank prompt "hi" passes validation. -/
theorem generate_blank_prompt_validation_witness :
    (generate_until_complete cfg_small oracle_stop ([] : Str)
      = ([], .error .invalidArgument)
     ∧ generate_until_complete cfg_small oracle_stop ([] : Str)
      = generate_until_complete cfg_small oracle_max ([] : Str))
    ∧ (generate_until_complete cfg_small oracle_stop prompt_hi).2
      ≠ .error .invalidArgument :=
  ⟨(generate_blank_prompt_validation cfg_small oracle_stop oracle_max []).1 rfl,
   (generate_blank_prompt_validation cfg_small oracle_stop oracle_max prompt_hi).2 rfl⟩

-- ──────────────────────────────────────────────────────────────────────────
-- Claim C4
-- ──────────────────────────────────────────────────────────────────────────

/-- C4: one `_send_with_retry` call attempts the request at most
`max_retries + 1` times; on the first success at attempt `k` it returns
that attempt's text and classified finish reason with `attempts_used = k`
and raises nothing; it fails if and only if all `max_retries + 1` attempts
fail, raising `RetryExhausted` wrapping the last underlying error — and a
`RetryExhausted` at any chunk aborts the entire session. -/
theorem send_with_retry_spec {ε : Type} (cfg : GenerationConfig)
    (oracle : Nat → Except ε (Str × Str)) :
    send_retry_claim cfg oracle
    ∧ ∀ (oracleD : Nat → Str → Nat → Except ε (Str × Str)) (prompt : Str)
        (j : Nat) (e : ε),
        is_blank prompt = false → j < cfg.max_chunks →
        (∀ j' msg, j' < j →
          ∃ t a, (send_with_retry cfg (oracleD j' msg)).result
            = .ok (t, .max_tokens, a)) →
        (∀ msg, (send_with_retry cfg (oracleD j msg)).result = .error e) →
        (generate_until_complete cfg oracleD prompt).2
          = .error (.retryExhausted e) := by
  constructor
  · refine ⟨?_, ?_, ?_, ?_⟩
    · obtain ⟨k, hk, htr⟩ :=
        send_attempts_tried cfg.retry_backoff oracle cfg.max_retries 0
      show (send_attempts cfg.retry_backoff oracle cfg.max_retries 0).tried.length
        ≤ cfg.max_retries + 1
      rw [htr, List.length_range']
      omega
    · intro t f k hres
      obtain ⟨h1, h2, h3, h4⟩ :=
        send_attempts_result_ok cfg.retry_backoff oracle cfg.max_retries 0 t f k hres
      exact ⟨by omega, h3, fun i hik => h4 i (Nat.zero_le _) hik⟩
    · intro e hres
      obtain ⟨h1, h2⟩ :=
        send_attempts_result_error cfg.retry_backoff oracle cfg.max_retries 0 e hres
      rw [Nat.zero_add] at h1
      exact ⟨h1, fun i hile => h2 i (Nat.zero_le _) (by omega)⟩
    · intro hall
      cases hres : (send_with_retry cfg oracle).result with
      | error e => exact ⟨e, rfl⟩
      | ok v =>
        obtain ⟨t, f, k⟩ := v
        obtain ⟨h1, h2, h3, h4⟩ :=
          send_attempts_result_ok cfg.retry_backoff oracle cfg.max_retries 0 t f k hres
        obtain ⟨raw, hraw, hfr⟩ := h3
        obtain ⟨e', he'⟩ := hall k (by omega)
        rw [hraw] at he'
        exact absurd he' (by simp)
  · intro oracleD prompt j e hb hj hprev hbad
    have hloop2 := generate_loop_retry_exhausted_at cfg oracleD prompt e
        cfg.max_chunks 0 [] 0 0 [] j (Nat.zero_le _) (by omega)
        (fun j' msg h1 h2 => hprev j' msg h2) hbad
    cases hp : generate_loop cfg oracleD prompt cfg.max_chunks 0 [] 0 0 [] with
    | mk tr0 out =>
      rw [hp] at hloop2
      cases out with
      | error e0 =>
        have he : e0 = GenError.retryExhausted e := by simpa using hloop2
        subst he
        rw [generate_error_eq cfg oracleD hb hp]
      | ok val => exact absurd hloop2 (by simp)

/-- Witness for C4: scenario D — attempts 0 and 1 fail, attempt 2 succeeds
with `max_retries = 3`, giving `attempts_used = 2`; and a chunk whose every
attempt fails aborts the session with `RetryExhausted` wrapping the last
error (attempt 3's error). -/
theorem send_with_retry_spec_witness :
    (send_with_retry default_cfg scenD_oracle).result
      = .ok ("ok".toList, .stop, 2)
    ∧ (2 ≤ default_cfg.max_retries
       ∧ (∃ raw, scenD_oracle 2 = .ok ("ok".toList, raw)
            ∧ FinishReason.stop = FinishReason.from_raw raw)
       ∧ ∀ i < 2, ∃ e, scenD_oracle i = .error e)
    ∧ (generate_until_complete cfg_five oracle_fail_two prompt_hi).2
      = .error (.retryExhausted 3) :=
  ⟨rfl,
   (send_with_retry_spec default_cfg scenD_oracle).1.2.1 "ok".toList .stop 2 rfl,
   (send_with_retry_spec cfg_five allFail_oracle).2 oracle_fail_two prompt_hi 1 3
     rfl (by decide)
     (fun j' msg hj' => by
       obtain rfl : j' = 0 := Nat.lt_one_iff.mp hj'
       exact ⟨"a".toList, 0, rfl⟩)
     (fun msg => rfl)⟩
